import Mathlib

/-!
Verification development for the call signaling and media-session state
machine of `src/components/Calls.tsx` (liaotian-beta).

The component is shallowly embedded as a pure state machine:

* `Track`, `MediaStream`, `Profile`, `IncomingCall`, `CallState`, `Toast`
  mirror the TypeScript data model. A track carries the device id that the
  browser reports through `getSettings().deviceId` (optional).
* `CallsState` collects the React `useState`/`useRef` cells of the `Calls`
  component. Two ghost fields record externally observable resource effects:
  `closedConns` (transport handles on which `close()` was called) and
  `stoppedTracks` (media tracks on which `stop()` was called, i.e. released
  hardware).
* `step : CallsState → Event → CallsState` gives the effect of each event
  handler of the component (incoming offer, call placement, answering,
  remote stream arrival, ICE connectivity change, hang up, decline, mute and
  video toggles, remote close). All handlers run sequentially on the event
  loop, so a call scenario is a list of events folded with `step` (`run`).

Transport model: closing a `MediaConnection` that was never answered (never
reached the open state) emits no local `close` event, so declining or
busy-rejecting an offer fires no local close handler; a remote close is the
separate `offerClosedByCaller` / `remoteClose` event.

The camera switch, the remote track state inferrer (`checkTracks`) and the
audio level hook (`useAudioLevel`) are embedded separately below.
-/

namespace Liaotian

inductive TrackKind
  | audio
  | video
deriving DecidableEq

/-- A media track: identity, kind, the mutable `enabled` flag, and the
device id reported by `getSettings()`. -/
structure Track where
  tid : Nat
  kind : TrackKind
  enabled : Bool
  deviceId : Option Nat
deriving DecidableEq

structure MediaStream where
  tracks : List Track
deriving DecidableEq

def MediaStream.getAudioTracks (s : MediaStream) : List Track :=
  s.tracks.filter (fun t => t.kind == TrackKind.audio)

def MediaStream.getVideoTracks (s : MediaStream) : List Track :=
  s.tracks.filter (fun t => t.kind == TrackKind.video)

structure Profile where
  id : String
  display_name : String
deriving DecidableEq

inductive MediaType
  | audio
  | video
deriving DecidableEq

/-- `IncomingCall` from Calls.tsx; `peerCall` is the transport handle,
modelled by a connection id. -/
structure IncomingCall where
  fromUser : Profile
  type : MediaType
  peerCall : Nat
deriving DecidableEq

inductive CallStatus
  | ringing
  | connecting
  | connected
  | reconnecting
deriving DecidableEq

/-- `CallState` from Calls.tsx (`with` is a Lean keyword, hence `withUser`). -/
structure CallState where
  withUser : Profile
  type : MediaType
  isCaller : Bool
  status : CallStatus
deriving DecidableEq

/-- `ToastMsg` from Calls.tsx, without the random id. -/
structure Toast where
  message : String
  isError : Bool
deriving DecidableEq

/-- ICE connection states observed by `monitorConnection`. -/
inductive IceState
  | iceNew
  | checking
  | connected
  | completed
  | disconnected
  | failed
  | closed
deriving DecidableEq

/-- The state cells of the `Calls` component plus the two ghost resource
logs (`closedConns`, `stoppedTracks`). -/
structure CallsState where
  incomingCall : Option IncomingCall
  callState : Option CallState
  localStream : Option MediaStream
  remoteStream : Option MediaStream
  isMuted : Bool
  isCamOff : Bool
  isRemoteMuted : Bool
  isRemoteCamOff : Bool
  cameras : List Nat
  currentCameraId : Option Nat
  toasts : List Toast
  activeCall : Option Nat
  closedConns : List Nat
  stoppedTracks : List Nat
deriving DecidableEq

def streamTracks : Option MediaStream → List Track
  | none => []
  | some s => s.tracks

/-- Every track of the stream has been stopped (hardware released). -/
def tracksStopped (os : Option MediaStream) (stopped : List Nat) : Bool :=
  (streamTracks os).all (fun t => stopped.contains t.tid)

/-- Number of tracks of the stream that are still live (not stopped). -/
def liveTrackCount (os : Option MediaStream) (stopped : List Nat) : Nat :=
  ((streamTracks os).filter (fun t => !stopped.contains t.tid)).length

/-- `getMedia` (Calls.tsx lines 302 to 329). `acquired = some stream` is the
success of `getUserMedia`; `none` is the catch branch, which emits an error
toast, does not touch `localStream`, and hands back an empty dummy stream.
On success: `setLocalStream`, then for video `setIsCamOff(false)` and
`setCurrentCameraId` from the first video track, then `setIsMuted(false)`. -/
def getMediaApply (st : CallsState) (type : MediaType)
    (acquired : Option MediaStream) : CallsState × MediaStream :=
  match acquired with
  | some stream =>
    let st1 := { st with localStream := some stream }
    let st2 :=
      match type with
      | MediaType.video =>
        let stv := { st1 with isCamOff := false }
        match stream.getVideoTracks.head? with
        | some vt => { stv with currentCameraId := vt.deviceId }
        | none => stv
      | MediaType.audio => st1
    ({ st2 with isMuted := false }, stream)
  | none =>
    ({ st with toasts :=
        st.toasts ++ [⟨"Could not access Camera/Microphone", true⟩] },
     ⟨[]⟩)

/-- `cleanupCall` (Calls.tsx lines 331 to 342): close the active transport,
stop all local and remote tracks, null out all call state. -/
def cleanupCall (st : CallsState) : CallsState :=
  { st with
    activeCall := none
    closedConns :=
      match st.activeCall with
      | some c => c :: st.closedConns
      | none => st.closedConns
    stoppedTracks := st.stoppedTracks
      ++ (streamTracks st.localStream).map Track.tid
      ++ (streamTracks st.remoteStream).map Track.tid
    localStream := none
    remoteStream := none
    callState := none
    incomingCall := none }

/-- `handleHangUp` (Calls.tsx lines 344 to 349): toast only when a call
state existed, then `cleanupCall`. -/
def handleHangUp (st : CallsState) : CallsState :=
  cleanupCall
    (if st.callState.isSome then
      { st with toasts := st.toasts ++ [⟨"Call ended", false⟩] }
     else st)

/-- The per-track body of `forEach(t => t.enabled = !t.enabled)` restricted
to tracks of kind `k` (which is what `getAudioTracks` / `getVideoTracks`
select). -/
def flipTrack (k : TrackKind) (t : Track) : Track :=
  if t.kind == k then { t with enabled := !t.enabled } else t

/-- `toggleMute` (Calls.tsx lines 479 to 485): flip `enabled` on every local
audio track in place; hardware is not stopped. -/
def toggleMute (st : CallsState) : CallsState :=
  match st.localStream with
  | none => st
  | some s =>
    let enabled := !((s.getAudioTracks.head?.map Track.enabled).getD false)
    { st with
      localStream := some ⟨s.tracks.map (flipTrack TrackKind.audio)⟩
      isMuted := !enabled }

/-- `toggleVideo` (Calls.tsx lines 487 to 493). -/
def toggleVideo (st : CallsState) : CallsState :=
  match st.localStream with
  | none => st
  | some s =>
    let enabled := !((s.getVideoTracks.head?.map Track.enabled).getD false)
    { st with
      localStream := some ⟨s.tracks.map (flipTrack TrackKind.video)⟩
      isCamOff := !enabled }

/-- The asynchronous events the component's handlers react to. The stream
acquired by `getUserMedia` and the remote stream are event payloads, since
their contents come from the environment. -/
inductive Event
  | incomingOffer (conn : Nat) (fromUser : Profile) (type : MediaType)
  | offerClosedByCaller (conn : Nat)
  | offerErrored
  | startCall (target : Profile) (type : MediaType)
      (acquired : Option MediaStream) (conn : Nat)
  | answerCall (acquired : Option MediaStream)
  | streamReceived (remote : MediaStream)
  | iceChange (ice : IceState)
  | remoteClose
  | hangUp
  | decline
  | toggleMuteBtn
  | toggleVideoBtn
deriving DecidableEq

/-- One sequential event-loop step of the `Calls` component.

* `incomingOffer`: `peer.on('call')` (lines 243 to 267) — when a call or an
  incoming offer already exists, `call.close()` and return; otherwise
  register the offer.
* `offerClosedByCaller`: the `call.on('close')` handler installed for a
  pending offer (lines 250 to 254).
* `offerErrored`: the `call.on('error')` handler (lines 257 to 260).
* `startCall` (lines 367 to 409): media acquisition result applied, call
  state set to connecting, transport handle recorded.
* `answerCall` (lines 411 to 439): same for the callee side.
* `streamReceived`: the `call.on('stream')` handler (lines 385 to 388,
  428 to 431) — stores the remote stream and maps an existing call state to
  connected.
* `iceChange`: `monitorConnection` (lines 351 to 365).
* `remoteClose`: the `call.on('close')` handler of the active call
  (lines 390 to 393, 433 to 436).
* `hangUp`: `handleHangUp`; `decline`: the decline button (lines 528 to
  534); `toggleMuteBtn` / `toggleVideoBtn`: the control buttons. -/
def step (st : CallsState) (e : Event) : CallsState :=
  match e with
  | Event.incomingOffer conn fromUser type =>
    if st.callState.isSome || st.incomingCall.isSome then
      { st with closedConns := conn :: st.closedConns }
    else
      { st with incomingCall := some ⟨fromUser, type, conn⟩ }
  | Event.offerClosedByCaller conn =>
    { st with
      incomingCall :=
        match st.incomingCall with
        | some ic => if ic.peerCall = conn then none else some ic
        | none => none
      toasts := st.toasts ++ [⟨"Call ended by caller", false⟩] }
  | Event.offerErrored =>
    { st with incomingCall := none }
  | Event.startCall target type acquired conn =>
    let st1 := (getMediaApply st type acquired).1
    { st1 with
      callState := some ⟨target, type, true, CallStatus.connecting⟩
      activeCall := some conn }
  | Event.answerCall acquired =>
    match st.incomingCall with
    | none => st
    | some ic =>
      let st1 := (getMediaApply st ic.type acquired).1
      { st1 with
        callState := some ⟨ic.fromUser, ic.type, false, CallStatus.connecting⟩
        activeCall := some ic.peerCall
        incomingCall := none }
  | Event.streamReceived remote =>
    { st with
      remoteStream := some remote
      callState := st.callState.map
        (fun cs => { cs with status := CallStatus.connected }) }
  | Event.iceChange ice =>
    if ice == IceState.disconnected || ice == IceState.failed then
      { st with
        toasts := st.toasts ++ [⟨"Connection unstable. Reconnecting...", true⟩]
        callState := st.callState.map
          (fun cs => { cs with status := CallStatus.reconnecting }) }
    else if ice == IceState.connected || ice == IceState.completed then
      { st with
        callState := st.callState.map
          (fun cs => { cs with status := CallStatus.connected }) }
    else st
  | Event.remoteClose =>
    let msg :=
      match st.callState with
      | some cs =>
        if cs.isCaller then cs.withUser.display_name ++ " hung up"
        else "Call ended"
      | none => "Call ended"
    let st1 := handleHangUp st
    { st1 with toasts := st1.toasts ++ [⟨msg, false⟩] }
  | Event.hangUp => handleHangUp st
  | Event.decline =>
    match st.incomingCall with
    | none => st
    | some ic =>
      { st with
        closedConns := ic.peerCall :: st.closedConns
        incomingCall := none }
  | Event.toggleMuteBtn => toggleMute st
  | Event.toggleVideoBtn => toggleVideo st

def run (st : CallsState) (es : List Event) : CallsState :=
  es.foldl step st

def statusOf (st : CallsState) : Option CallStatus :=
  st.callState.map CallState.status

/-- The all-idle initial component state. -/
def idleState : CallsState :=
  { incomingCall := none, callState := none, localStream := none
    remoteStream := none, isMuted := false, isCamOff := false
    isRemoteMuted := false, isRemoteCamOff := false, cameras := []
    currentCameraId := none, toasts := [], activeCall := none
    closedConns := [], stoppedTracks := [] }

/-! ## Embeddings of the remaining components and concrete scenarios -/

/-- The event sequence in which the remote-stream callback of the placed
call fires only after the call was hung up. -/
def lateStreamEvents : List Event :=
  [Event.startCall ⟨"b", "B"⟩ MediaType.audio
      (some ⟨[⟨1, TrackKind.audio, true, none⟩]⟩) 4,
   Event.hangUp,
   Event.streamReceived ⟨[⟨7, TrackKind.audio, true, none⟩]⟩]

/-- One observable primitive action of `switchCamera`
(Calls.tsx lines 442 to 477). `acquire` is the completion of the
`getUserMedia` await for the new device; `stopOld` is `currentVidTrack.stop()`. -/
inductive CamAction
  | acquire (device : Nat)
  | removeOld (tid : Nat)
  | stopOld (tid : Nat)
  | addNew (t : Track)
  | setCamera (device : Nat)
  | replaceSender (tid : Nat)
  | toastFail
deriving DecidableEq

/-- `(cameras.findIndex(c => c.deviceId === currentCameraId) + 1) % cameras.length`;
a missing current id gives JS index `-1`, hence next index `0`. -/
def nextCameraIndex (cams : List Nat) (cur : Option Nat) : Nat :=
  match cams.findIdx? (fun c => some c = cur) with
  | some i => (i + 1) % cams.length
  | none => 0

/-- The ordered list of primitive actions `switchCamera` performs, read off
the statement order of the source. `ok` is whether the `getUserMedia` call
for the new device succeeds; on failure only the error toast happens
(the catch branch). The new capture is awaited first; the old video track
is removed and stopped afterwards, then the new track is added, the camera
id recorded, and the sender track replaced when a call is active. -/
def switchCameraTrace (st : CallsState) (newTrack : Track) (ok : Bool) :
    List CamAction :=
  match st.localStream with
  | none => []
  | some ls =>
    if st.cameras.length < 2 then []
    else
      match st.cameras.get? (nextCameraIndex st.cameras st.currentCameraId) with
      | none => []
      | some d =>
        if ok then
          [CamAction.acquire d]
            ++ (match ls.getVideoTracks.head? with
                | some vt => [CamAction.removeOld vt.tid, CamAction.stopOld vt.tid]
                | none => [])
            ++ [CamAction.addNew newTrack, CamAction.setCamera d]
            ++ (if st.activeCall.isSome then [CamAction.replaceSender newTrack.tid]
                else [])
        else
          [CamAction.toastFail]

/-- State effect of each primitive camera-switch action. -/
def applyCam (st : CallsState) (a : CamAction) : CallsState :=
  match a with
  | CamAction.acquire _ => st
  | CamAction.removeOld tid =>
    { st with localStream :=
        st.localStream.map (fun s => ⟨s.tracks.filter (fun t => t.tid != tid)⟩) }
  | CamAction.stopOld tid =>
    { st with stoppedTracks := st.stoppedTracks ++ [tid] }
  | CamAction.addNew t =>
    { st with localStream := st.localStream.map (fun s => ⟨s.tracks ++ [t]⟩) }
  | CamAction.setCamera d => { st with currentCameraId := some d }
  | CamAction.replaceSender _ => st
  | CamAction.toastFail =>
    { st with toasts := st.toasts ++ [⟨"Failed to switch camera", true⟩] }

def switchCamera (st : CallsState) (newTrack : Track) (ok : Bool) : CallsState :=
  (switchCameraTrace st newTrack ok).foldl applyCam st

/-- A connected video call with two cameras, the local video track `5` on
device `0`, and an active transport `9`. -/
def camBusyState : CallsState :=
  { idleState with
    callState := some ⟨⟨"b", "B"⟩, MediaType.video, true, CallStatus.connected⟩
    localStream := some ⟨[⟨5, TrackKind.video, true, some 0⟩]⟩
    cameras := [0, 1]
    currentCameraId := some 0
    activeCall := some 9 }

def camNewTrack : Track := ⟨6, TrackKind.video, true, some 1⟩

/-- `checkTracks` for audio (Calls.tsx lines 192 to 197): the reported
remote-mute flag, computed from the first audio track only. -/
def checkTracksRemoteMuted (s : MediaStream) : Bool :=
  match s.getAudioTracks.head? with
  | some a => !a.enabled
  | none => true

/-- `checkTracks` for video: the reported remote-camera-off flag. -/
def checkTracksRemoteCamOff (s : MediaStream) : Bool :=
  match s.getVideoTracks.head? with
  | some v => !v.enabled
  | none => true

/-- The fixed polling interval of the inferrer (`setInterval(checkTracks, 1000)`). -/
def remotePollIntervalMs : Nat := 1000

/-- State of the `useAudioLevel` hook: the published level and whether an
analysis graph is currently feeding the animation loop. -/
structure AudioLevelState where
  level : ℚ
  hasSource : Bool
deriving DecidableEq

/-- Events of `useAudioLevel` (Calls.tsx lines 33 to 97): the effect
re-running with a new stream value, and one animation frame delivering the
byte frequency data (values of a `Uint8Array`). -/
inductive AudioEvent
  | setStream (s : Option MediaStream)
  | frame (data : List Nat)
deriving DecidableEq

/-- One step of `useAudioLevel`. A null stream sets the level to 0 and
stops analysis; a stream with no audio tracks returns early — analysis
stops but the level keeps its previous value; a frame while analysing
publishes `min 1 ((sum / length) / 50)`. -/
def audioStep (st : AudioLevelState) (e : AudioEvent) : AudioLevelState :=
  match e with
  | AudioEvent.setStream none => { level := 0, hasSource := false }
  | AudioEvent.setStream (some s) =>
    if s.getAudioTracks.length = 0 then { st with hasSource := false }
    else { st with hasSource := true }
  | AudioEvent.frame data =>
    if st.hasSource then
      { st with level := min 1 ((data.sum : ℚ) / (data.length : ℚ) / 50) }
    else st

def audioRun (st : AudioLevelState) (es : List AudioEvent) : AudioLevelState :=
  es.foldl audioStep st

/-- Recognizer for remote-stream events, used to state that a trace
contains none. -/
def Event.isStreamReceived : Event → Bool
  | Event.streamReceived _ => true
  | _ => false

/-- The trace that places a call and then receives only an ICE
connectivity event. -/
def iceOnlyEvents : List Event :=
  [Event.startCall ⟨"b", "B"⟩ MediaType.audio
      (some ⟨[⟨1, TrackKind.audio, true, none⟩]⟩) 4,
   Event.iceChange IceState.connected]

/-! ## General lemmas -/

theorem tracksStopped_of_mem (os : Option MediaStream) (stopped : List Nat)
    (h : ∀ t ∈ streamTracks os, t.tid ∈ stopped) :
    tracksStopped os stopped = true := by
  simp only [tracksStopped, List.all_eq_true]
  intro t ht
  simpa [List.elem_iff] using h t ht

theorem flipTrack_flipTrack (k : TrackKind) (t : Track) :
    flipTrack k (flipTrack k t) = t := by
  cases t with
  | mk tid kind enabled deviceId =>
    by_cases hk : kind == k <;> simp [flipTrack, hk]

theorem map_flipTrack_flipTrack (k : TrackKind) (l : List Track) :
    l.map (flipTrack k ∘ flipTrack k) = l := by
  induction l with
  | nil => rfl
  | cons a tl ih => simp [Function.comp, flipTrack_flipTrack, ih]

/-! ## C1: busy rejection of a second inbound offer -/

/-- C1: while a `CallSession` (`callState`) or a pending `IncomingCallOffer`
(`incomingCall`) exists, a new inbound offer is handled by closing its
transport only: the whole component state is unchanged except for the closed
connection log, so in particular the existing call/offer, streams and toasts
are untouched and the new offer never becomes pending. -/
theorem busy_offer_rejected (st : CallsState) (conn : Nat) (p : Profile)
    (mt : MediaType)
    (h : st.callState.isSome = true ∨ st.incomingCall.isSome = true) :
    step st (Event.incomingOffer conn p mt)
      = { st with closedConns := conn :: st.closedConns } ∧
    (step st (Event.incomingOffer conn p mt)).incomingCall = st.incomingCall ∧
    (step st (Event.incomingOffer conn p mt)).toasts = st.toasts := by
  have hb : (st.callState.isSome || st.incomingCall.isSome) = true := by
    rcases h with h | h <;> simp [h]
  refine ⟨?_, ?_, ?_⟩ <;> simp [step, hb]

theorem busy_offer_rejected_witness :
    (step { idleState with
        incomingCall := some ⟨⟨"a", "A"⟩, MediaType.audio, 3⟩ }
      (Event.incomingOffer 4 ⟨"b", "B"⟩ MediaType.video)).incomingCall
        = some ⟨⟨"a", "A"⟩, MediaType.audio, 3⟩ ∧
    (step { idleState with
        incomingCall := some ⟨⟨"a", "A"⟩, MediaType.audio, 3⟩ }
      (Event.incomingOffer 4 ⟨"b", "B"⟩ MediaType.video)).closedConns = [4] := by
  have h := busy_offer_rejected
    { idleState with incomingCall := some ⟨⟨"a", "A"⟩, MediaType.audio, 3⟩ }
    4 ⟨"b", "B"⟩ MediaType.video (Or.inr (by decide))
  exact ⟨h.2.1, congrArg CallsState.closedConns h.1⟩

/-! ## C3: hangUp resets to idle and releases everything -/

/-- C3: invoking hang-up from any non-idle state (a `callState` exists,
whatever its status) results in the idle state: no call, no pending offer,
no streams, no active transport handle, every formerly held local and remote
track stopped, and zero live tracks. -/
theorem hangUp_resets_to_idle (st : CallsState) (cs : CallState)
    (h : st.callState = some cs) :
    (step st Event.hangUp).callState = none ∧
    (step st Event.hangUp).incomingCall = none ∧
    (step st Event.hangUp).localStream = none ∧
    (step st Event.hangUp).remoteStream = none ∧
    (step st Event.hangUp).activeCall = none ∧
    tracksStopped st.localStream (step st Event.hangUp).stoppedTracks = true ∧
    tracksStopped st.remoteStream (step st Event.hangUp).stoppedTracks = true ∧
    liveTrackCount (step st Event.hangUp).localStream
      (step st Event.hangUp).stoppedTracks = 0 ∧
    liveTrackCount (step st Event.hangUp).remoteStream
      (step st Event.hangUp).stoppedTracks = 0 := by
  have hh : step st Event.hangUp
      = cleanupCall { st with toasts := st.toasts ++ [⟨"Call ended", false⟩] } := by
    simp [step, handleHangUp, h]
  rw [hh]
  refine ⟨rfl, rfl, rfl, rfl, rfl, ?_, ?_, rfl, rfl⟩
  · apply tracksStopped_of_mem
    intro t ht
    simp only [cleanupCall, List.mem_append]
    exact Or.inl (Or.inr (List.mem_map_of_mem Track.tid ht))
  · apply tracksStopped_of_mem
    intro t ht
    simp only [cleanupCall, List.mem_append]
    exact Or.inr (List.mem_map_of_mem Track.tid ht)

theorem hangUp_resets_to_idle_witness :
    (step { idleState with
        callState := some ⟨⟨"b", "B"⟩, MediaType.audio, true, CallStatus.connected⟩
        localStream := some ⟨[⟨1, TrackKind.audio, true, none⟩]⟩
        remoteStream := some ⟨[⟨2, TrackKind.audio, true, none⟩]⟩
        activeCall := some 5 } Event.hangUp).callState = none ∧
    tracksStopped (some ⟨[⟨1, TrackKind.audio, true, none⟩]⟩)
      (step { idleState with
        callState := some ⟨⟨"b", "B"⟩, MediaType.audio, true, CallStatus.connected⟩
        localStream := some ⟨[⟨1, TrackKind.audio, true, none⟩]⟩
        remoteStream := some ⟨[⟨2, TrackKind.audio, true, none⟩]⟩
        activeCall := some 5 } Event.hangUp).stoppedTracks = true := by
  have h := hangUp_resets_to_idle
    { idleState with
        callState := some ⟨⟨"b", "B"⟩, MediaType.audio, true, CallStatus.connected⟩
        localStream := some ⟨[⟨1, TrackKind.audio, true, none⟩]⟩
        remoteStream := some ⟨[⟨2, TrackKind.audio, true, none⟩]⟩
        activeCall := some 5 }
    ⟨⟨"b", "B"⟩, MediaType.audio, true, CallStatus.connected⟩ rfl
  exact ⟨h.1, h.2.2.2.2.2.1⟩

/-! ## C5: declining a pending offer is silent -/

/-- C5: declining a pending incoming offer (the decline button exists only
while `incomingCall` is set, i.e. in the incoming-pending state) closes the
offer transport and returns the machine to idle with no other change — in
particular no toast is produced. -/
theorem decline_silent_to_idle (st : CallsState) (ic : IncomingCall)
    (h : st.incomingCall = some ic) (hcs : st.callState = none) :
    step st Event.decline
      = { st with
          incomingCall := none
          closedConns := ic.peerCall :: st.closedConns } ∧
    (step st Event.decline).toasts = st.toasts ∧
    (step st Event.decline).callState = none ∧
    (step st Event.decline).incomingCall = none := by
  refine ⟨?_, ?_, ?_, ?_⟩ <;> simp [step, h, hcs]

theorem decline_silent_to_idle_witness :
    (step { idleState with
        incomingCall := some ⟨⟨"a", "A"⟩, MediaType.video, 7⟩ }
      Event.decline).toasts = [] ∧
    (step { idleState with
        incomingCall := some ⟨⟨"a", "A"⟩, MediaType.video, 7⟩ }
      Event.decline).incomingCall = none ∧
    (step { idleState with
        incomingCall := some ⟨⟨"a", "A"⟩, MediaType.video, 7⟩ }
      Event.decline).closedConns = [7] := by
  have h := decline_silent_to_idle
    { idleState with incomingCall := some ⟨⟨"a", "A"⟩, MediaType.video, 7⟩ }
    ⟨⟨"a", "A"⟩, MediaType.video, 7⟩ rfl rfl
  exact ⟨h.2.1, h.2.2.2, congrArg CallsState.closedConns h.1⟩

/-! ## C7: toggles are involutive and keep the hardware -/

/-- C7: for a live local media session, toggling mute twice restores every
track (in particular each audio track's `enabled` flag and the very same
track objects), and likewise toggling video twice; neither operation stops
any track (the stopped-track log is unchanged). -/
theorem toggle_twice_restores_tracks (st : CallsState) (s : MediaStream)
    (h : st.localStream = some s) :
    (toggleMute (toggleMute st)).localStream = st.localStream ∧
    (toggleMute (toggleMute st)).stoppedTracks = st.stoppedTracks ∧
    (toggleVideo (toggleVideo st)).localStream = st.localStream ∧
    (toggleVideo (toggleVideo st)).stoppedTracks = st.stoppedTracks := by
  cases s with
  | mk tr =>
    refine ⟨?_, ?_, ?_, ?_⟩ <;>
      simp [toggleMute, toggleVideo, h, map_flipTrack_flipTrack]

theorem toggle_twice_restores_tracks_witness :
    (toggleMute (toggleMute { idleState with
        localStream := some ⟨[⟨1, TrackKind.audio, true, none⟩,
                              ⟨2, TrackKind.video, true, some 0⟩]⟩ })).localStream
      = some ⟨[⟨1, TrackKind.audio, true, none⟩,
               ⟨2, TrackKind.video, true, some 0⟩]⟩ ∧
    (toggleVideo (toggleVideo { idleState with
        localStream := some ⟨[⟨1, TrackKind.audio, true, none⟩,
                              ⟨2, TrackKind.video, true, some 0⟩]⟩ })).stoppedTracks
      = [] := by
  have h := toggle_twice_restores_tracks
    { idleState with
        localStream := some ⟨[⟨1, TrackKind.audio, true, none⟩,
                              ⟨2, TrackKind.video, true, some 0⟩]⟩ }
    ⟨[⟨1, TrackKind.audio, true, none⟩, ⟨2, TrackKind.video, true, some 0⟩]⟩ rfl
  exact ⟨h.1, h.2.2.2⟩

/-! ## C10: successful media acquisition resets the toggle flags -/

/-- C10: whenever local media acquisition succeeds at the start of placing
or answering a call (`getMedia` success path), the acquired stream is
stored, the mute flag is reset to `false`, and for video calls the
camera-off flag is reset to `false` and the current camera id is taken from
the acquired video track, so every new call starts unmuted and with the
camera on regardless of the flags left by a previous call. -/
theorem getMedia_resets_flags (st : CallsState) (type : MediaType)
    (stream : MediaStream) :
    (getMediaApply st type (some stream)).1.isMuted = false ∧
    (getMediaApply st type (some stream)).1.localStream = some stream ∧
    (type = MediaType.video →
      (getMediaApply st type (some stream)).1.isCamOff = false) ∧
    (∀ vt, type = MediaType.video →
      stream.getVideoTracks.head? = some vt →
      (getMediaApply st type (some stream)).1.currentCameraId = vt.deviceId) := by
  refine ⟨rfl, ?_, ?_, ?_⟩
  · cases type
    · rfl
    · cases hv : stream.getVideoTracks.head? <;> simp [getMediaApply, hv]
  · intro htype
    subst htype
    cases hv : stream.getVideoTracks.head? <;> simp [getMediaApply, hv]
  · intro vt htype hvt
    subst htype
    simp [getMediaApply, hvt]

theorem getMedia_resets_flags_witness :
    (getMediaApply { idleState with isMuted := true, isCamOff := true }
      MediaType.video
      (some ⟨[⟨1, TrackKind.audio, true, none⟩,
              ⟨2, TrackKind.video, true, some 3⟩]⟩)).1.isMuted = false ∧
    (getMediaApply { idleState with isMuted := true, isCamOff := true }
      MediaType.video
      (some ⟨[⟨1, TrackKind.audio, true, none⟩,
              ⟨2, TrackKind.video, true, some 3⟩]⟩)).1.isCamOff = false ∧
    (getMediaApply { idleState with isMuted := true, isCamOff := true }
      MediaType.video
      (some ⟨[⟨1, TrackKind.audio, true, none⟩,
              ⟨2, TrackKind.video, true, some 3⟩]⟩)).1.currentCameraId = some 3 := by
  have h := getMedia_resets_flags
    { idleState with isMuted := true, isCamOff := true } MediaType.video
    ⟨[⟨1, TrackKind.audio, true, none⟩, ⟨2, TrackKind.video, true, some 3⟩]⟩
  exact ⟨h.1, h.2.2.1 rfl,
    h.2.2.2 ⟨2, TrackKind.video, true, some 3⟩ rfl (by decide)⟩

/-! ## C4: the late remote-stream callback after hang up -/

/-- C4, code evaluated at the failing input: when the `stream` callback
fires after hang-up, the call state stays idle, but the late-arriving
stream is stored in `remoteStream` rather than discarded, and none of its
tracks are stopped (released). The source handler runs
`setRemoteStream(rStream)` unconditionally and only guards `setCallState`. -/
theorem late_stream_stored_after_hangup :
    (run idleState lateStreamEvents).callState = none ∧
    (run idleState lateStreamEvents).remoteStream
      = some ⟨[⟨7, TrackKind.audio, true, none⟩]⟩ ∧
    tracksStopped (run idleState lateStreamEvents).remoteStream
      (run idleState lateStreamEvents).stoppedTracks = false := by
  decide

/-! ## C6: camera switching order of operations -/

/-- C6 counterexample: on a concrete two-camera video call, the new
capture is acquired to completion as the very first action (position 0)
while the old camera's track is stopped only at position 2 — the old
handle is still held when the new capture completes, refuting the claim
that this never happens. -/
theorem switchCamera_acquires_before_release :
    switchCameraTrace camBusyState camNewTrack true
      = [CamAction.acquire 1, CamAction.removeOld 5, CamAction.stopOld 5,
         CamAction.addNew camNewTrack, CamAction.setCamera 1,
         CamAction.replaceSender 6] ∧
    (switchCameraTrace camBusyState camNewTrack true).get? 0
      = some (CamAction.acquire 1) ∧
    (switchCameraTrace camBusyState camNewTrack true).get? 2
      = some (CamAction.stopOld 5) := by
  decide

/-- C6 amended: `switchCamera` acquires the new camera's capture to
completion first, while the old camera's handle is still held, and releases
(stops) the old track only afterwards — immediately after acquisition
succeeds and before the new track is attached; when acquisition fails, only
a toast happens and the old camera's track is not stopped. -/
theorem switchCamera_release_follows_acquire (st : CallsState)
    (ls : MediaStream) (vt nt : Track) (d : Nat)
    (hls : st.localStream = some ls)
    (hvt : ls.getVideoTracks.head? = some vt)
    (hc : 2 ≤ st.cameras.length)
    (hd : st.cameras[nextCameraIndex st.cameras st.currentCameraId]?
      = some d) :
    switchCameraTrace st nt true
      = [CamAction.acquire d, CamAction.removeOld vt.tid,
         CamAction.stopOld vt.tid, CamAction.addNew nt, CamAction.setCamera d]
        ++ (if st.activeCall.isSome then [CamAction.replaceSender nt.tid]
            else []) ∧
    switchCameraTrace st nt false = [CamAction.toastFail] ∧
    (switchCamera st nt false).stoppedTracks = st.stoppedTracks ∧
    vt.tid ∈ (switchCamera st nt true).stoppedTracks := by
  have h2 : ¬ st.cameras.length < 2 := by omega
  have htr : switchCameraTrace st nt true
      = [CamAction.acquire d, CamAction.removeOld vt.tid,
         CamAction.stopOld vt.tid, CamAction.addNew nt, CamAction.setCamera d]
        ++ (if st.activeCall.isSome then [CamAction.replaceSender nt.tid]
            else []) := by
    simp [switchCameraTrace, hls, h2, hd, hvt]
  refine ⟨htr, ?_, ?_, ?_⟩
  · simp [switchCameraTrace, hls, h2, hd]
  · simp [switchCamera, switchCameraTrace, hls, h2, hd, applyCam]
  · rw [switchCamera, htr]
    cases hac : st.activeCall.isSome <;> simp [hac, applyCam]

theorem switchCamera_release_follows_acquire_witness :
    switchCameraTrace camBusyState camNewTrack false = [CamAction.toastFail] ∧
    5 ∈ (switchCamera camBusyState camNewTrack true).stoppedTracks := by
  have h := switchCamera_release_follows_acquire camBusyState
    ⟨[⟨5, TrackKind.video, true, some 0⟩]⟩ ⟨5, TrackKind.video, true, some 0⟩
    camNewTrack 1 rfl (by decide) (by decide) (by decide)
  exact ⟨h.2.1, h.2.2.2⟩

/-! ## C8: the remote track state inferrer -/

/-- C8 counterexample: a stream whose first audio track is disabled but
whose second audio track is enabled. An enabled audio track is present, yet
the inferrer reports `remoteMuted = true`, because `checkTracks` inspects
only `getAudioTracks()[0]`. -/
theorem checkTracks_second_track_ignored :
    checkTracksRemoteMuted ⟨[⟨1, TrackKind.audio, false, none⟩,
                             ⟨2, TrackKind.audio, true, none⟩]⟩ = true ∧
    (MediaStream.getAudioTracks ⟨[⟨1, TrackKind.audio, false, none⟩,
        ⟨2, TrackKind.audio, true, none⟩]⟩).any Track.enabled = true := by
  decide

/-- C8 amended: the inferrer decides from the first audio (resp. video)
track only: `remoteMuted` is false exactly when an enabled audio track is
present provided the stream carries at most one audio track (and likewise
`remoteCameraOff` for video tracks), recomputed on track events and on a
fixed 1000 ms polling interval. -/
theorem checkTracks_reports_first_track :
    (∀ s : MediaStream, s.getAudioTracks.length ≤ 1 →
      (checkTracksRemoteMuted s = false
        ↔ s.getAudioTracks.any Track.enabled = true)) ∧
    (∀ s : MediaStream, s.getVideoTracks.length ≤ 1 →
      (checkTracksRemoteCamOff s = false
        ↔ s.getVideoTracks.any Track.enabled = true)) ∧
    remotePollIntervalMs = 1000 := by
  refine ⟨?_, ?_, rfl⟩
  · intro s h
    cases hA : s.getAudioTracks with
    | nil => simp [checkTracksRemoteMuted, hA]
    | cons a tl =>
      have hl : tl = [] := by
        rw [hA] at h
        simp only [List.length_cons] at h
        exact List.eq_nil_of_length_eq_zero (by omega)
      subst hl
      simp [checkTracksRemoteMuted, hA]
  · intro s h
    cases hA : s.getVideoTracks with
    | nil => simp [checkTracksRemoteCamOff, hA]
    | cons a tl =>
      have hl : tl = [] := by
        rw [hA] at h
        simp only [List.length_cons] at h
        exact List.eq_nil_of_length_eq_zero (by omega)
      subst hl
      simp [checkTracksRemoteCamOff, hA]

theorem checkTracks_reports_first_track_witness :
    checkTracksRemoteMuted ⟨[⟨1, TrackKind.audio, true, none⟩]⟩ = false ∧
    checkTracksRemoteCamOff ⟨[⟨2, TrackKind.video, false, none⟩]⟩ ≠ false := by
  constructor
  · exact (checkTracks_reports_first_track.1
      ⟨[⟨1, TrackKind.audio, true, none⟩]⟩ (by decide)).mpr (by decide)
  · intro hfalse
    have h := (checkTracks_reports_first_track.2.1
      ⟨[⟨2, TrackKind.video, false, none⟩]⟩ (by decide)).mp hfalse
    exact absurd h (by decide)

/-! ## C9: the audio level monitor -/

theorem audioStep_level_bounds (st : AudioLevelState) (e : AudioEvent)
    (h0 : 0 ≤ st.level) (h1 : st.level ≤ 1) :
    0 ≤ (audioStep st e).level ∧ (audioStep st e).level ≤ 1 := by
  cases e with
  | setStream s =>
    cases s with
    | none => constructor <;> simp [audioStep]
    | some sv =>
      by_cases hs : sv.getAudioTracks.length = 0 <;>
        simp [audioStep, hs, h0, h1]
  | frame data =>
    by_cases hsrc : st.hasSource
    · have hx : 0 ≤ (data.sum : ℚ) / (data.length : ℚ) / 50 := by positivity
      constructor
      · simp only [audioStep, hsrc, if_true]
        exact le_min zero_le_one hx
      · simp only [audioStep, hsrc, if_true]
        exact min_le_left _ _
    · simp [audioStep, hsrc, h0, h1]

/-- C9 counterexample: after a loud frame on an audio stream, replacing the
stream by one containing no audio tracks leaves the published level at its
stale nonzero value instead of pinning it to 0: the hook returns early
before resetting the level (`if (stream.getAudioTracks().length === 0) return`). -/
theorem audioLevel_stale_after_no_audio_stream :
    (audioRun ⟨0, false⟩
      [AudioEvent.setStream (some ⟨[⟨1, TrackKind.audio, true, none⟩]⟩),
       AudioEvent.frame [255],
       AudioEvent.setStream (some ⟨[⟨2, TrackKind.video, true, none⟩]⟩)]).level
      ≠ 0 := by
  simp [audioRun, audioStep, MediaStream.getAudioTracks, List.filter]
  split <;> norm_num

/-- C9 amended: the published level always stays in `[0, 1]`, and a null
stream pins it at 0; a stream containing no audio tracks leaves the level
unchanged (so it reads 0 only if it was already 0), rather than pinning it. -/
theorem audioLevel_range_and_reset :
    (∀ st es, 0 ≤ st.level → st.level ≤ 1 →
      0 ≤ (audioRun st es).level ∧ (audioRun st es).level ≤ 1) ∧
    (∀ st, (audioStep st (AudioEvent.setStream none)).level = 0) ∧
    (∀ st s, s.getAudioTracks.length = 0 →
      (audioStep st (AudioEvent.setStream (some s))).level = st.level) := by
  refine ⟨?_, fun st => rfl, ?_⟩
  · intro st es
    induction es generalizing st with
    | nil => exact fun h0 h1 => ⟨h0, h1⟩
    | cons e tl ih =>
      intro h0 h1
      have hb := audioStep_level_bounds st e h0 h1
      exact ih (audioStep st e) hb.1 hb.2
  · intro st s hs
    simp [audioStep, hs]

theorem audioLevel_range_and_reset_witness :
    (0 ≤ (audioRun ⟨0, false⟩ [AudioEvent.frame [10]]).level ∧
      (audioRun ⟨0, false⟩ [AudioEvent.frame [10]]).level ≤ 1) ∧
    (audioStep ⟨(1:ℚ)/2, true⟩ (AudioEvent.setStream none)).level = 0 ∧
    (audioStep ⟨(1:ℚ)/2, true⟩
      (AudioEvent.setStream (some ⟨[⟨3, TrackKind.video, true, none⟩]⟩))).level
      = (1:ℚ)/2 := by
  refine ⟨audioLevel_range_and_reset.1 ⟨0, false⟩ _ le_rfl zero_le_one,
    audioLevel_range_and_reset.2.1 ⟨(1:ℚ)/2, true⟩,
    audioLevel_range_and_reset.2.2 ⟨(1:ℚ)/2, true⟩ _ (by decide)⟩

/-! ## C2: the status transition discipline -/

theorem toggleMute_callState (st : CallsState) :
    (toggleMute st).callState = st.callState := by
  cases h : st.localStream <;> simp [toggleMute, h]

theorem toggleVideo_callState (st : CallsState) :
    (toggleVideo st).callState = st.callState := by
  cases h : st.localStream <;> simp [toggleVideo, h]

theorem getMediaApply_callState (st : CallsState) (type : MediaType)
    (acq : Option MediaStream) :
    (getMediaApply st type acq).1.callState = st.callState := by
  cases acq with
  | none => rfl
  | some s =>
    cases type with
    | audio => rfl
    | video => cases h : s.getVideoTracks.head? <;> simp [getMediaApply, h]

theorem step_incomingOffer_callState (st : CallsState) (conn : Nat)
    (p : Profile) (mt : MediaType) :
    (step st (Event.incomingOffer conn p mt)).callState = st.callState := by
  by_cases hb : (st.callState.isSome || st.incomingCall.isSome) = true <;>
    simp [step, hb]

/-- Every step either preserves the status, clears the call, creates it in
the connecting status, or (only when a call already existed) maps its
status to connected or reconnecting. -/
theorem step_statusOf (st : CallsState) (e : Event) :
    statusOf (step st e) = statusOf st ∨
    statusOf (step st e) = none ∨
    statusOf (step st e) = some CallStatus.connecting ∨
    (st.callState.isSome = true ∧
      statusOf (step st e) = some CallStatus.connected) ∨
    (st.callState.isSome = true ∧
      statusOf (step st e) = some CallStatus.reconnecting) := by
  cases e with
  | incomingOffer conn p mt =>
    exact Or.inl (by simp [statusOf, step_incomingOffer_callState])
  | offerClosedByCaller conn => exact Or.inl (by simp [statusOf, step])
  | offerErrored => exact Or.inl (by simp [statusOf, step])
  | startCall target mt acq conn =>
    exact Or.inr (Or.inr (Or.inl (by simp [statusOf, step])))
  | answerCall acq =>
    cases hic : st.incomingCall with
    | none => exact Or.inl (by simp [statusOf, step, hic])
    | some ic => exact Or.inr (Or.inr (Or.inl (by simp [statusOf, step, hic])))
  | streamReceived r =>
    cases hcs : st.callState with
    | none => exact Or.inr (Or.inl (by simp [statusOf, step, hcs]))
    | some cs =>
      exact Or.inr (Or.inr (Or.inr (Or.inl
        ⟨by simp [hcs], by simp [statusOf, step, hcs]⟩)))
  | iceChange ice =>
    cases hcs : st.callState with
    | none =>
      cases ice <;> exact Or.inr (Or.inl (by simp [statusOf, step, hcs]))
    | some cs =>
      cases ice with
      | disconnected =>
        exact Or.inr (Or.inr (Or.inr (Or.inr
          ⟨by simp [hcs], by simp [statusOf, step, hcs]⟩)))
      | failed =>
        exact Or.inr (Or.inr (Or.inr (Or.inr
          ⟨by simp [hcs], by simp [statusOf, step, hcs]⟩)))
      | connected =>
        exact Or.inr (Or.inr (Or.inr (Or.inl
          ⟨by simp [hcs], by simp [statusOf, step, hcs]⟩)))
      | completed =>
        exact Or.inr (Or.inr (Or.inr (Or.inl
          ⟨by simp [hcs], by simp [statusOf, step, hcs]⟩)))
      | iceNew => exact Or.inl (by simp [statusOf, step])
      | checking => exact Or.inl (by simp [statusOf, step])
      | closed => exact Or.inl (by simp [statusOf, step])
  | remoteClose =>
    exact Or.inr (Or.inl (by simp [statusOf, step, handleHangUp, cleanupCall]))
  | hangUp =>
    exact Or.inr (Or.inl (by simp [statusOf, step, handleHangUp, cleanupCall]))
  | decline =>
    cases hic : st.incomingCall with
    | none => exact Or.inl (by simp [statusOf, step, hic])
    | some ic => exact Or.inl (by simp [statusOf, step, hic])
  | toggleMuteBtn =>
    exact Or.inl (by simp only [statusOf, step, toggleMute_callState])
  | toggleVideoBtn =>
    exact Or.inl (by simp only [statusOf, step, toggleVideo_callState])

theorem step_statusOf_ne_ringing (st : CallsState) (e : Event)
    (h : statusOf st ≠ some CallStatus.ringing) :
    statusOf (step st e) ≠ some CallStatus.ringing := by
  rcases step_statusOf st e with h1 | h1 | h1 | ⟨_, h1⟩ | ⟨_, h1⟩
  · rw [h1]; exact h
  · rw [h1]; simp
  · rw [h1]; simp
  · rw [h1]; simp
  · rw [h1]; simp

theorem step_statusOf_of_none (st : CallsState) (e : Event)
    (h : st.callState = none) :
    statusOf (step st e) = none ∨
    statusOf (step st e) = some CallStatus.connecting := by
  rcases step_statusOf st e with h1 | h1 | h1 | ⟨hs, _⟩ | ⟨hs, _⟩
  · left; rw [h1]; simp [statusOf, h]
  · left; exact h1
  · right; exact h1
  · rw [h] at hs; simp at hs
  · rw [h] at hs; simp at hs

/-- Whenever a trace from a non-ringing start reaches connected status,
either the status was connecting at some prefix, or the start was already
connected or reconnecting. -/
theorem connected_after_connecting_aux (es : List Event) :
    ∀ st0 : CallsState, statusOf st0 ≠ some CallStatus.ringing →
      statusOf (run st0 es) = some CallStatus.connected →
      (∃ es₁ es₂, es = es₁ ++ es₂ ∧
        statusOf (run st0 es₁) = some CallStatus.connecting)
      ∨ statusOf st0 = some CallStatus.connected
      ∨ statusOf st0 = some CallStatus.reconnecting := by
  induction es with
  | nil =>
    intro st0 _ h
    exact Or.inr (Or.inl h)
  | cons e tl ih =>
    intro st0 hring h
    have h' : statusOf (run (step st0 e) tl) = some CallStatus.connected := h
    have hring1 : statusOf (step st0 e) ≠ some CallStatus.ringing :=
      step_statusOf_ne_ringing st0 e hring
    rcases ih (step st0 e) hring1 h' with hA | hB | hB
    · obtain ⟨t₁, t₂, htl, hconn⟩ := hA
      exact Or.inl ⟨e :: t₁, t₂, by rw [htl]; rfl, hconn⟩
    · cases hcs0 : st0.callState with
      | none =>
        rcases step_statusOf_of_none st0 e hcs0 with h1 | h1
        · rw [h1] at hB; exact Option.noConfusion hB
        · rw [h1] at hB; exact absurd hB (by simp)
      | some cs0 =>
        cases hst : cs0.status with
        | ringing => exact absurd (by simp [statusOf, hcs0, hst]) hring
        | connecting =>
          exact Or.inl ⟨[], e :: tl, rfl, by simp [run, statusOf, hcs0, hst]⟩
        | connected => exact Or.inr (Or.inl (by simp [statusOf, hcs0, hst]))
        | reconnecting => exact Or.inr (Or.inr (by simp [statusOf, hcs0, hst]))
    · cases hcs0 : st0.callState with
      | none =>
        rcases step_statusOf_of_none st0 e hcs0 with h1 | h1
        · rw [h1] at hB; exact Option.noConfusion hB
        · rw [h1] at hB; exact absurd hB (by simp)
      | some cs0 =>
        cases hst : cs0.status with
        | ringing => exact absurd (by simp [statusOf, hcs0, hst]) hring
        | connecting =>
          exact Or.inl ⟨[], e :: tl, rfl, by simp [run, statusOf, hcs0, hst]⟩
        | connected => exact Or.inr (Or.inl (by simp [statusOf, hcs0, hst]))
        | reconnecting => exact Or.inr (Or.inr (by simp [statusOf, hcs0, hst]))

/-- C2 counterexample: from the idle state, the trace that places a call
and then receives only an ICE connectivity change to connected ends with
status connected, although the trace contains no remote-stream event: the
ICE handler alone can set the status to connected. -/
theorem connected_without_stream_event :
    statusOf (run idleState iceOnlyEvents) = some CallStatus.connected ∧
    iceOnlyEvents.filter Event.isStreamReceived = [] := by
  decide

/-- C2 amended: every call that is placed or accepted passes through the
connecting status strictly before the connected status is ever shown; and
the connected status is only ever set by a remote-stream event or by an ICE
connectivity change to connected or completed (not by stream events
alone, as claimed). -/
theorem connecting_precedes_connected :
    (∀ st0 es, st0.callState = none →
      statusOf (run st0 es) = some CallStatus.connected →
      ∃ es₁ es₂, es = es₁ ++ es₂ ∧
        statusOf (run st0 es₁) = some CallStatus.connecting) ∧
    (∀ st e, statusOf st ≠ some CallStatus.connected →
      statusOf (step st e) = some CallStatus.connected →
      (∃ r, e = Event.streamReceived r) ∨
        e = Event.iceChange IceState.connected ∨
        e = Event.iceChange IceState.completed) := by
  constructor
  · intro st0 es h0 h
    have hring : statusOf st0 ≠ some CallStatus.ringing := by
      simp [statusOf, h0]
    rcases connected_after_connecting_aux es st0 hring h with hA | hB | hB
    · exact hA
    · simp [statusOf, h0] at hB
    · simp [statusOf, h0] at hB
  · intro st e hne h
    cases e with
    | incomingOffer conn p mt =>
      have hp : statusOf (step st (Event.incomingOffer conn p mt))
          = statusOf st := by
        simp [statusOf, step_incomingOffer_callState]
      exact absurd (hp.symm.trans h) hne
    | offerClosedByCaller conn =>
      have hp : statusOf (step st (Event.offerClosedByCaller conn))
          = statusOf st := by simp [statusOf, step]
      exact absurd (hp.symm.trans h) hne
    | offerErrored =>
      have hp : statusOf (step st Event.offerErrored) = statusOf st := by
        simp [statusOf, step]
      exact absurd (hp.symm.trans h) hne
    | startCall target mt acq conn =>
      have hp : statusOf (step st (Event.startCall target mt acq conn))
          = some CallStatus.connecting := by simp [statusOf, step]
      rw [hp] at h
      exact absurd h (by simp)
    | answerCall acq =>
      cases hic : st.incomingCall with
      | none =>
        have hp : statusOf (step st (Event.answerCall acq)) = statusOf st := by
          simp [statusOf, step, hic]
        exact absurd (hp.symm.trans h) hne
      | some ic =>
        have hp : statusOf (step st (Event.answerCall acq))
            = some CallStatus.connecting := by simp [statusOf, step, hic]
        rw [hp] at h
        exact absurd h (by simp)
    | streamReceived r => exact Or.inl ⟨r, rfl⟩
    | iceChange ice =>
      cases ice with
      | connected => exact Or.inr (Or.inl rfl)
      | completed => exact Or.inr (Or.inr rfl)
      | disconnected =>
        cases hcs : st.callState with
        | none => simp [statusOf, step, hcs] at h
        | some cs => simp [statusOf, step, hcs] at h
      | failed =>
        cases hcs : st.callState with
        | none => simp [statusOf, step, hcs] at h
        | some cs => simp [statusOf, step, hcs] at h
      | iceNew =>
        have hp : statusOf (step st (Event.iceChange IceState.iceNew))
            = statusOf st := by simp [statusOf, step]
        exact absurd (hp.symm.trans h) hne
      | checking =>
        have hp : statusOf (step st (Event.iceChange IceState.checking))
            = statusOf st := by simp [statusOf, step]
        exact absurd (hp.symm.trans h) hne
      | closed =>
        have hp : statusOf (step st (Event.iceChange IceState.closed))
            = statusOf st := by simp [statusOf, step]
        exact absurd (hp.symm.trans h) hne
    | remoteClose =>
      simp [statusOf, step, handleHangUp, cleanupCall] at h
    | hangUp =>
      simp [statusOf, step, handleHangUp, cleanupCall] at h
    | decline =>
      cases hic : st.incomingCall with
      | none =>
        have hp : statusOf (step st Event.decline) = statusOf st := by
          simp [statusOf, step, hic]
        exact absurd (hp.symm.trans h) hne
      | some ic =>
        have hp : statusOf (step st Event.decline) = statusOf st := by
          simp [statusOf, step, hic]
        exact absurd (hp.symm.trans h) hne
    | toggleMuteBtn =>
      have hp : statusOf (step st Event.toggleMuteBtn) = statusOf st := by
        simp only [statusOf, step, toggleMute_callState]
      exact absurd (hp.symm.trans h) hne
    | toggleVideoBtn =>
      have hp : statusOf (step st Event.toggleVideoBtn) = statusOf st := by
        simp only [statusOf, step, toggleVideo_callState]
      exact absurd (hp.symm.trans h) hne

theorem connecting_precedes_connected_witness :
    ∃ es₁ es₂, iceOnlyEvents = es₁ ++ es₂ ∧
      statusOf (run idleState es₁) = some CallStatus.connecting := by
  exact connecting_precedes_connected.1 idleState iceOnlyEvents rfl (by decide)

end Liaotian
